import Mathlib

set_option maxHeartbeats 1000000

/-!
Verification of the `real_time_note_taker` application core (`src/app.rs`,
`src/key_utils.rs`) against its natural-language specification.

Rust strings are modelled as lists of characters; Rust's byte-oriented
`str::len` is recovered from each character's UTF-8 encoded size, and the
input-buffer cursor is kept as a byte offset exactly as in the source.
Timestamps (`DateTime<Local>`) are modelled as local nanoseconds since the
epoch (an `Int`), `Instant` as a `Nat`; the external chrono RFC 3339 codec is
modelled by an injective decimal rendering with the same round-trip contract.
File-system and clock effects are passed in explicitly through an `Env`
record.
-/

namespace RTNT

/-! ## Strings and UTF-8 byte lengths -/

/-- Rust strings, modelled as their lists of characters. -/
abbrev Str := List Char

/-- Number of bytes in the UTF-8 encoding of a character. -/
def utf8Len (c : Char) : Nat :=
  if c.toNat < 0x80 then 1
  else if c.toNat < 0x800 then 2
  else if c.toNat < 0x10000 then 3
  else 4

/-- Rust `str::len`: the number of bytes in the UTF-8 encoding of a string. -/
def byteLen (s : Str) : Nat := (s.map utf8Len).sum

/-! ## Decimal codec

The timestamp written by `save_to_file` goes through chrono's
`to_rfc3339` and is read back by `parse_from_rfc3339`; that external codec is
modelled here by a decimal rendering of the instant with the same
injectivity / round-trip contract.  The digit functions are also reused by
the `%H:%M:%S` formatting of the time-hack audit note. -/

/-- Character for a single decimal digit. -/
def digitChar (d : Nat) : Char :=
  match d with
  | 0 => '0'
  | 1 => '1'
  | 2 => '2'
  | 3 => '3'
  | 4 => '4'
  | 5 => '5'
  | 6 => '6'
  | 7 => '7'
  | 8 => '8'
  | _ => '9'

/-- Value of a decimal digit character, `none` on anything else. -/
def digitVal (c : Char) : Option Nat :=
  let n := c.toNat
  if 48 ≤ n ∧ n ≤ 57 then some (n - 48) else none

/-- Decimal digits of `n`, most significant first, prepended to `acc`. -/
def natDigitsAux (n : Nat) (acc : List Char) : List Char :=
  if _h : n < 10 then digitChar n :: acc
  else natDigitsAux (n / 10) (digitChar (n % 10) :: acc)
termination_by n
decreasing_by exact Nat.div_lt_self (by omega) (by omega)

/-- Decimal rendering of a natural number. -/
def natDigits (n : Nat) : List Char := natDigitsAux n []

/-- Number of decimal digits `natDigits` produces. -/
def digitCount (n : Nat) : Nat :=
  if _h : n < 10 then 1 else digitCount (n / 10) + 1
termination_by n
decreasing_by exact Nat.div_lt_self (by omega) (by omega)

/-- Left-to-right accumulator parse of decimal digits. -/
def parseNatAux : List Char → Nat → Option Nat
  | [], acc => some acc
  | c :: cs, acc =>
    match digitVal c with
    | some d => parseNatAux cs (acc * 10 + d)
    | none => none

/-- Parse of a non-empty all-digit string. -/
def parseNat (s : List Char) : Option Nat :=
  match s with
  | [] => none
  | c :: cs =>
    match digitVal c with
    | some d => parseNatAux cs d
    | none => none

/-! ## Instants and the timestamp codec

Local timestamps (`DateTime<Local>`) are modelled as nanoseconds since the
epoch, an `Int`; monotone clock readings (`std::time::Instant`) as a `Nat`.
Both are used unabbreviated so that linear-arithmetic automation sees them. -/

/-- Model of chrono `DateTime::to_rfc3339`: an injective rendering of the
instant. -/
def encTime (t : Int) : Str :=
  if t < 0 then '-' :: natDigits t.natAbs else natDigits t.toNat

/-- Model of chrono `DateTime::parse_from_rfc3339` followed by
`with_timezone(&Local)`: recovers the instant `encTime` rendered. -/
def decTime (s : Str) : Option Int :=
  match s with
  | [] => none
  | c :: rest =>
    if c = '-' then (parseNat rest).map (fun (n : Nat) => -(n : Int))
    else (parseNat (c :: rest)).map (fun (n : Nat) => (n : Int))

/-! ## Key codes and the key codec (`src/key_utils.rs`)

Crossterm `KeyCode` is modelled with the variants the program logic
distinguishes: the seven symbolic keys of the codec, printable characters,
and `Backspace` (handled by the shared editing handler).  Remaining crossterm
variants behave like `Backspace` outside the editing handler: they hit the
generic debug fallback of `key_to_string` and no dedicated match arm. -/

inductive KeyCode where
  | char (c : Char)
  | enter
  | esc
  | up
  | down
  | left
  | right
  | null
  | backspace
deriving DecidableEq

/-- Translation of `key_to_string`: `Char(c)` renders as the one-character
string, symbolic keys by name, anything else through the debug fallback. -/
def key_to_string (key : KeyCode) : Str :=
  match key with
  | .char c => [c]
  | .enter => "Enter".data
  | .esc => "Esc".data
  | .up => "Up".data
  | .down => "Down".data
  | .left => "Left".data
  | .right => "Right".data
  | .null => "Null".data
  | .backspace => "Backspace".data

/-- Translation of `string_to_key`: the seven symbolic names, then any string
whose byte length is 1 becomes its first character; everything else is
`none`.  Rust's `c.len() == 1` is a byte-length test, mirrored here by
`byteLen`. -/
def string_to_key (s : Str) : Option KeyCode :=
  if s = "Enter".data then some .enter
  else if s = "Esc".data then some .esc
  else if s = "Up".data then some .up
  else if s = "Down".data then some .down
  else if s = "Left".data then some .left
  else if s = "Right".data then some .right
  else if s = "Null".data then some .null
  else if byteLen s = 1 then s.head?.map .char
  else none

/-! ## Actions, input modes and key bindings (`src/app.rs`) -/

/-- Actions that can be bound to keys. -/
inductive Action where
  | up
  | down
  | edit
  | newNote
  | newSection
  | save
  | load
  | quit
  | cancel
  | bindings
  | theme
  | timeHack
deriving DecidableEq

/-- Declaration-order list `Action::ALL`. -/
def Action.ALL : List Action :=
  [.up, .down, .edit, .newNote, .newSection, .save, .load, .quit, .cancel,
   .bindings, .theme, .timeHack]

/-- Input mode for the application. -/
inductive InputMode where
  | normal
  | editingNote
  | editingSection
  | editingExistingNote
  | editingExistingSection
  | saving
  | loading
  | timeHack
  | keyBindings
  | keyCapture
  | confirmReplace
  | bindWarning
  | themeSelect
deriving DecidableEq

/-- Collection of keys that control navigation and editing. -/
structure KeyBindings where
  up : KeyCode
  down : KeyCode
  edit : KeyCode
  new_note : KeyCode
  new_section : KeyCode
  save : KeyCode
  load : KeyCode
  quit : KeyCode
  cancel : KeyCode
  bindings : KeyCode
  theme : KeyCode
  time_hack : KeyCode
deriving DecidableEq

/-- Default key bindings (`impl Default for KeyBindings`). -/
def defaultKeys : KeyBindings where
  up := .up
  down := .down
  edit := .char 'e'
  new_note := .enter
  new_section := .char 's'
  save := .char 'w'
  load := .char 'l'
  quit := .char 'q'
  cancel := .esc
  bindings := .char 'b'
  theme := .char 't'
  time_hack := .char 'h'

/-- Key bound to an action (`KeyBindings::get`). -/
def KeyBindings.get (k : KeyBindings) (action : Action) : KeyCode :=
  match action with
  | .up => k.up
  | .down => k.down
  | .edit => k.edit
  | .newNote => k.new_note
  | .newSection => k.new_section
  | .save => k.save
  | .load => k.load
  | .quit => k.quit
  | .cancel => k.cancel
  | .bindings => k.bindings
  | .theme => k.theme
  | .timeHack => k.time_hack

/-- Setting the key for an action (`KeyBindings::set`). -/
def KeyBindings.set (k : KeyBindings) (action : Action) (key : KeyCode) : KeyBindings :=
  match action with
  | .up => { k with up := key }
  | .down => { k with down := key }
  | .edit => { k with edit := key }
  | .newNote => { k with new_note := key }
  | .newSection => { k with new_section := key }
  | .save => { k with save := key }
  | .load => { k with load := key }
  | .quit => { k with quit := key }
  | .cancel => { k with cancel := key }
  | .bindings => { k with bindings := key }
  | .theme => { k with theme := key }
  | .timeHack => { k with time_hack := key }

/-- First action bound to a key, in declaration order
(`KeyBindings::action_for_key`). -/
def KeyBindings.action_for_key (k : KeyBindings) (key : KeyCode) : Option Action :=
  if k.up = key then some .up
  else if k.down = key then some .down
  else if k.edit = key then some .edit
  else if k.new_note = key then some .newNote
  else if k.new_section = key then some .newSection
  else if k.save = key then some .save
  else if k.load = key then some .load
  else if k.quit = key then some .quit
  else if k.cancel = key then some .cancel
  else if k.bindings = key then some .bindings
  else if k.theme = key then some .theme
  else if k.time_hack = key then some .timeHack
  else none

/-! ## Entries and notes -/

/-- Represents a single note with timestamp. -/
structure Note where
  timestamp : Int
  text : Str
deriving DecidableEq

/-- Represents a section with a title but no timestamp. -/
structure Section where
  title : Str
deriving DecidableEq

/-- A single entry which may be a note or a section.  The section
constructor is spelled `sec` because `section` is a Lean keyword. -/
inductive Entry where
  | note (n : Note)
  | sec (s : Section)
deriving DecidableEq

/-- Number of themes: `ThemeName::ALL` has six elements; themes are modelled
by their index in that array. -/
def themeCount : Nat := 6

/-! ## Application state

Mirrors `struct App` field for field.  `save_dir` and file paths are
abstracted: files in the save directory are identified by numbers, and the
rendered default save path becomes an environment datum.  The ghost field
`saved_keys` records the bindings most recently persisted through
`KeyBindings::save` (a best-effort external write in the source). -/

structure App where
  entries : List Entry
  notes : List Note
  input : Str
  cursor : Nat
  mode : InputMode
  note_time : Option Int
  time_hack : Option (Nat × Nat)
  selected : Option Nat
  edit_index : Option Nat
  keys : KeyBindings
  load_files : List Nat
  load_selected : Nat
  keybind_selected : Nat
  capture_action : Option Action
  pending_key : Option KeyCode
  pending_action : Option Action
  pending_conflict : Option Action
  theme : Nat
  theme_selected : Nat
  saved_keys : Option KeyBindings
deriving DecidableEq

/-- Environment of a call into the state machine: the two clocks, the
configuration files read by `load_or_default`, and the file system touched by
save and load. -/
structure Env where
  sysNow : Int
  inst : Nat
  cfgKeys : KeyBindings
  cfgTheme : Nat
  savePath : Str
  saveOk : Bool
  dirFiles : List Nat
  readFile : Nat → Option (List (List Str))

/-- Translation of `App::default` / `App::new`: empty stores, `Normal` mode,
bindings and theme as loaded from configuration. -/
def freshApp (keys : KeyBindings) (theme : Nat) : App where
  entries := []
  notes := []
  input := []
  cursor := 0
  mode := .normal
  note_time := none
  time_hack := none
  selected := none
  edit_index := none
  keys := keys
  load_files := []
  load_selected := 0
  keybind_selected := 0
  capture_action := none
  pending_key := none
  pending_action := none
  pending_conflict := none
  theme := theme
  theme_selected := 0
  saved_keys := none

/-! ## Clock -/

/-- Nanoseconds per day. -/
def nsPerDay : Int := 86400000000000

/-- Nanoseconds per second. -/
def nsPerSec : Nat := 1000000000

/-- Midnight of the local day containing `t` (`Local::now().date_naive()`
composed with `and_time`). -/
def dateOf (t : Int) : Int := t - t % nsPerDay

/-- Translation of `App::current_time`: hacked clock when a time hack is
active, otherwise the system clock.  `saturating_duration_since` is natural
subtraction on instants. -/
def App.current_time (env : Env) (s : App) : Int :=
  match s.time_hack with
  | some (base, start) =>
    let delta := env.inst - start
    let base_dt := dateOf env.sysNow + (base : Int)
    base_dt + (delta : Int)
  | none => env.sysNow

/-! ## Selection and entry editing -/

/-- Translation of `App::select_previous`. -/
def App.select_previous (s : App) : App :=
  match s.selected with
  | some 0 => s
  | none => s
  | some (i + 1) => { s with selected := some i }

/-- Translation of `App::select_next`. -/
def App.select_next (s : App) : App :=
  match s.selected with
  | some i => if i + 1 < s.entries.length then { s with selected := some (i + 1) } else s
  | none => if s.entries.isEmpty then s else { s with selected := some 0 }

/-- Translation of `App::edit_selected`.  The source indexes
`self.entries[idx]` directly; an out-of-bounds selection would panic there
and is modelled as leaving the state unchanged. -/
def App.edit_selected (s : App) : App :=
  match s.selected with
  | none => s
  | some idx =>
    match s.entries[idx]? with
    | some (.note n) =>
      { s with input := n.text, cursor := byteLen n.text, note_time := some n.timestamp,
               edit_index := some idx, mode := .editingExistingNote }
    | some (.sec c) =>
      { s with input := c.title, cursor := byteLen c.title, note_time := none,
               edit_index := some idx, mode := .editingExistingSection }
    | none => s

/-- Translation of `App::start_note`. -/
def App.start_note (env : Env) (s : App) : App :=
  { s with note_time := some (s.current_time env), input := [], cursor := 0,
           edit_index := none, mode := .editingNote }

/-- Translation of `App::start_section`. -/
def App.start_section (s : App) : App :=
  { s with note_time := none, input := [], cursor := 0, edit_index := none,
           mode := .editingSection }

/-- Translation of `App::start_save`: the input buffer is primed with the
default save path. -/
def App.start_save (env : Env) (s : App) : App :=
  { s with input := env.savePath, cursor := byteLen env.savePath, mode := .saving }

/-- Translation of `App::start_load`: the csv files of the save directory are
listed into `load_files`. -/
def App.start_load (env : Env) (s : App) : App :=
  { s with load_files := env.dirFiles, load_selected := 0, input := [], cursor := 0,
           mode := .loading }

/-- Translation of `App::start_keybindings`. -/
def App.start_keybindings (s : App) : App :=
  { s with keybind_selected := 0, mode := .keyBindings }

/-- Translation of `App::start_theme_menu`: with themes modelled as indices
into `ThemeName::ALL`, the `position` of the current theme is itself when it
is in range, `0` otherwise (`unwrap_or(0)`). -/
def App.start_theme_menu (s : App) : App :=
  { s with theme_selected := if s.theme < themeCount then s.theme else 0,
           mode := .themeSelect }

/-- Translation of `App::start_time_hack`. -/
def App.start_time_hack (s : App) : App :=
  { s with input := [], cursor := 0, mode := .timeHack }

/-- Translation of `App::start_capture_binding`. -/
def App.start_capture_binding (s : App) : App :=
  match Action.ALL[s.keybind_selected]? with
  | some action => { s with capture_action := some action, mode := .keyCapture }
  | none => s

/-! ## Finalizers -/

/-- Helper of `finalize_note`'s edit path: `notes.iter_mut().find(...)`
overwrites the text of the first note whose timestamp equals `ts`. -/
def updateFirstNote : List Note → Int → Str → List Note
  | [], _, _ => []
  | m :: ms, ts, txt =>
    if m.timestamp = ts then { m with text := txt } :: ms
    else m :: updateFirstNote ms ts txt

/-- Translation of `App::finalize_note`.  In the edit path the source indexes
`self.entries[idx]` (panic when out of bounds, modelled as the same fall
through as a non-note entry); the input buffer is drained only inside the
note arm, exactly as `input.drain` sits inside the `if let`. -/
def App.finalize_note (s : App) : App :=
  match s.edit_index with
  | some idx =>
    match s.entries[idx]? with
    | some (.note n) =>
      { s with entries := s.entries.set idx (.note { timestamp := n.timestamp, text := s.input }),
               notes := updateFirstNote s.notes n.timestamp s.input,
               input := [], edit_index := none, mode := .normal, note_time := none, cursor := 0 }
    | _ =>
      { s with edit_index := none, mode := .normal, note_time := none, cursor := 0 }
  | none =>
    match s.note_time with
    | some time =>
      let note : Note := { timestamp := time, text := s.input }
      { s with notes := s.notes ++ [note], entries := s.entries ++ [.note note],
               selected := some s.entries.length,
               input := [], note_time := none, mode := .normal, cursor := 0 }
    | none => s

/-- Translation of `App::finalize_section`: the title is drained from the
input buffer first, so the buffer ends empty on every path; a new section is
appended only when the title is non-empty (no trimming happens in the
source). -/
def App.finalize_section (s : App) : App :=
  let title := s.input
  match s.edit_index with
  | some idx =>
    match s.entries[idx]? with
    | some (.sec _) =>
      { s with entries := s.entries.set idx (.sec { title := title }),
               edit_index := none, note_time := none, input := [], mode := .normal, cursor := 0 }
    | _ =>
      { s with edit_index := none, note_time := none, input := [], mode := .normal, cursor := 0 }
  | none =>
    if title = [] then { s with input := [], mode := .normal, cursor := 0 }
    else
      { s with entries := s.entries ++ [.sec { title := title }],
               selected := some s.entries.length,
               input := [], mode := .normal, cursor := 0 }

/-- Translation of `App::cancel_entry`. -/
def App.cancel_entry (s : App) : App :=
  { s with input := [], note_time := none, edit_index := none, cursor := 0, mode := .normal }

/-! ## Time-of-day parsing and formatting

Model of `NaiveTime::parse_from_str` with format `%H:%M:%S%.f`, falling back
to `%H:%M:%S` (the fallback is subsumed: `%.f` consumes nothing when no dot
follows).  As in chrono's parser: whitespace is trimmed before each numeric
field (but not before the `:` literals or the fraction), each numeric field
reads one or two digits, `%S` accepts the leap second `60` (chrono represents
it as second 59 with a nanosecond overflow — in flattened nanoseconds of day
the same value as counting 60 full seconds), the fraction takes its value
from the first nine digits after the dot and skips any further digits, and
nothing may remain.  The parsed time of day is nanoseconds since midnight. -/

/-- Rust `char::is_whitespace`: Unicode `White_Space`. -/
def isWhitespaceChar (c : Char) : Bool :=
  let n := c.toNat
  (9 ≤ n ∧ n ≤ 13 : Bool) || (n = 32 : Bool) || (n = 0x85 : Bool) || (n = 0xA0 : Bool) ||
  (n = 0x1680 : Bool) || (0x2000 ≤ n ∧ n ≤ 0x200A : Bool) || (n = 0x2028 : Bool) ||
  (n = 0x2029 : Bool) || (n = 0x202F : Bool) || (n = 0x205F : Bool) || (n = 0x3000 : Bool)

/-- Reads one or two leading decimal digits (chrono numeric field). -/
def takeUpTo2Digits (s : Str) : Option (Nat × Str) :=
  match s with
  | [] => none
  | [c] => (digitVal c).map (fun x => (x, ([] : Str)))
  | c :: d :: rest =>
    match digitVal c, digitVal d with
    | some x, some y => some (x * 10 + y, rest)
    | some x, none => some (x, d :: rest)
    | none, _ => none

/-- Chrono numeric field: whitespace trimmed, then one or two digits. -/
def takeNumericField (s : Str) : Option (Nat × Str) :=
  takeUpTo2Digits (s.dropWhile isWhitespaceChar)

/-- Requires and consumes a colon. -/
def expectColon : Str → Option Str
  | ':' :: rest => some rest
  | _ => none

/-- Optional `%.f` sub-second fraction at end of input, in nanoseconds: a
dot and at least one digit, the value scaled from the first nine digits,
digits beyond the ninth skipped, and nothing after them. -/
def parseFrac (s : Str) : Option Nat :=
  match s with
  | [] => some 0
  | '.' :: ds =>
    if ds = [] then none
    else if ds.all (fun c => (digitVal c).isSome) then
      (parseNatAux (ds.take 9) 0).map (fun v => v * 10 ^ (9 - (ds.take 9).length))
    else none
  | _ => none

/-- Full time-of-day parse, nanoseconds since midnight. -/
def parseTimeOfDay (s : Str) : Option Nat :=
  match takeNumericField s with
  | none => none
  | some (h, r1) =>
    match expectColon r1 with
    | none => none
    | some r2 =>
      match takeNumericField r2 with
      | none => none
      | some (m, r3) =>
        match expectColon r3 with
        | none => none
        | some r4 =>
          match takeNumericField r4 with
          | none => none
          | some (sec, r5) =>
            match parseFrac r5 with
            | none => none
            | some frac =>
              if h < 24 ∧ m < 60 ∧ sec ≤ 60 then
                some (((h * 60 + m) * 60 + sec) * nsPerSec + frac)
              else none

/-- Two-digit zero-padded decimal. -/
def two (n : Nat) : Str := [digitChar (n / 10 % 10), digitChar (n % 10)]

/-- Model of formatting a timestamp with `%H:%M:%S`. -/
def fmtHMS (t : Int) : Str :=
  let sod := (t % nsPerDay).toNat / nsPerSec
  two (sod / 3600) ++ [':'] ++ two (sod / 60 % 60) ++ [':'] ++ two (sod % 60)

/-- Translation of `App::finalize_time_hack`.  The source reads
`Local::now()` and `Instant::now()` during the call; both come from `env`,
and the second `Instant::now()` inside `current_time` is identified with the
first (zero elapsed latency). -/
def App.finalize_time_hack (env : Env) (s : App) : App :=
  if s.input = [] then
    { s with time_hack := none, input := [], cursor := 0, mode := .normal }
  else
    match parseTimeOfDay s.input with
    | some tod =>
      let now := env.sysNow
      let s1 := { s with time_hack := some (tod, env.inst) }
      let hacked := s1.current_time env
      let note : Note :=
        { timestamp := now,
          text := "Time Hack: ".data ++ fmtHMS now ++ " -> ".data ++ fmtHMS hacked }
      { s1 with notes := s1.notes ++ [note], entries := s1.entries ++ [.note note],
                selected := some s1.entries.length,
                input := [], cursor := 0, mode := .normal }
    | none => { s with input := [], cursor := 0, mode := .normal }

/-! ## CSV persistence (`save_to_file` / `load_from_file`)

The csv crate is modelled at the record level: a file is its list of
records, each record a list of fields.  Quoting and unquoting of fields is
the crate's round-trip contract and is not re-modelled. -/

/-- Record written for one entry by `save_to_file`. -/
def rowOfEntry : Entry → List Str
  | .note n => ["note".data, encTime n.timestamp, n.text]
  | .sec c => ["section".data, [], c.title]

/-- Records written by `App::save_to_file`, in `entries` order. -/
def saveRows (entries : List Entry) : List (List Str) := entries.map rowOfEntry

/-- Translation of `App::save_to_file`: fails when the underlying file I/O
fails, otherwise produces the records written. -/
def App.save_to_file (env : Env) (s : App) : Except Unit (List (List Str)) :=
  if env.saveOk then .ok (saveRows s.entries) else .error ()

/-- One record of `App::load_from_file`'s reader loop.  A `note` record with
an unparseable timestamp aborts the load (`map_err(io::Error::other)?`);
records with missing fields and unrecognized first fields are skipped. -/
def loadStep (a : App) (record : List Str) : Except Unit App :=
  match record[0]? with
  | some f =>
    if f = "note".data then
      match record[1]?, record[2]? with
      | some ts, some text =>
        match decTime ts with
        | some t =>
          .ok { a with notes := a.notes ++ [{ timestamp := t, text := text }],
                       entries := a.entries ++ [.note { timestamp := t, text := text }] }
        | none => .error ()
      | _, _ => .ok a
    else if f = "section".data then
      match record[2]? with
      | some title => .ok { a with entries := a.entries ++ [.sec { title := title }] }
      | none => .ok a
    else .ok a
  | none => .ok a

/-- Reader loop of `App::load_from_file`: each record is folded into the
accumulating app, and a failing record aborts the whole load. -/
def loadRecords : App → List (List Str) → Except Unit App
  | a, [] => .ok a
  | a, r :: rs =>
    match loadStep a r with
    | .ok a1 => loadRecords a1 rs
    | .error e => .error e

/-- Translation of `App::load_from_file` on the records of a file: a fresh
default app accumulated through the reader loop. -/
def load_from_file (env : Env) (rows : List (List Str)) : Except Unit App :=
  loadRecords (freshApp env.cfgKeys env.cfgTheme) rows

/-- Projection of the note entries, in order (the `notes` list a load
reconstructs, and the shape every API-reachable state keeps `notes` in). -/
def notesOf (entries : List Entry) : List Note :=
  entries.filterMap (fun e => match e with | .note n => some n | .sec _ => none)

/-! ## Byte-indexed buffer editing

The cursor is a byte offset into the UTF-8 encoding of the input buffer,
exactly as in the source.  `String::insert` and `String::remove` panic when
the offset is not a character boundary; the model completes those cases
totally (inserting or removing at the enclosing character) and the boundary
question is treated by the caret-soundness analysis. -/

/-- Whether byte offset `i` is a character boundary of `s`
(`str::is_char_boundary`). -/
def isCharBoundary (s : Str) (i : Nat) : Bool :=
  if i = 0 then true
  else
    match s with
    | [] => false
    | x :: xs => if utf8Len x ≤ i then isCharBoundary xs (i - utf8Len x) else false

/-- Model of `String::insert` at byte offset `i`.  Rust panics when `i` is
inside a character's encoding; there the model inserts after that
character. -/
def insertAtByte : Str → Nat → Char → Str
  | [], _, c => [c]
  | x :: xs, i, c =>
    if i = 0 then c :: x :: xs
    else if utf8Len x ≤ i then x :: insertAtByte xs (i - utf8Len x) c
    else x :: c :: xs

/-- Model of `String::remove` at byte offset `i`.  Rust panics when `i` is
inside a character's encoding; there the model removes that character. -/
def removeAtByte : Str → Nat → Str
  | [], _ => []
  | x :: xs, i =>
    if i = 0 then xs
    else if utf8Len x ≤ i then x :: removeAtByte xs (i - utf8Len x)
    else xs

/-! ## Events and handlers -/

/-- Key modifiers as the editing handler distinguishes them: none, shift
only, anything else. -/
inductive KeyModifiers where
  | none
  | shift
  | other
deriving DecidableEq

/-- Kind of a key event. -/
inductive KeyEventKind where
  | press
  | release
  | repeated
deriving DecidableEq

/-- A crossterm key event. -/
structure KeyEvent where
  code : KeyCode
  modifiers : KeyModifiers
  kind : KeyEventKind
deriving DecidableEq

/-- A terminal event: a key event or anything else (resize, mouse, ...). -/
inductive Event where
  | key (k : KeyEvent)
  | nonKey
deriving DecidableEq

/-- A key press with no modifiers. -/
def keyPress (code : KeyCode) : KeyEvent where
  code := code
  modifiers := .none
  kind := .press

/-- Translation of `App::handle_normal_key`: the guard chain in source
order. -/
def App.handle_normal_key (env : Env) (s : App) (key : KeyEvent) : App :=
  let c := key.code
  if c = s.keys.up then s.select_previous
  else if c = s.keys.down then s.select_next
  else if c = s.keys.edit then s.edit_selected
  else if c = s.keys.new_note then s.start_note env
  else if c = s.keys.new_section then s.start_section
  else if c = s.keys.save then s.start_save env
  else if c = s.keys.load then s.start_load env
  else if c = s.keys.bindings then s.start_keybindings
  else if c = s.keys.theme then s.start_theme_menu
  else if c = s.keys.time_hack then s.start_time_hack
  else s

/-- Translation of `App::handle_editing_key`: confirm, cancel, the TimeHack
reset key, character insertion, backspace, and caret movement, with the
arms in source order. -/
def App.handle_editing_key (env : Env) (s : App) (key : KeyEvent) : App :=
  let c := key.code
  if c = s.keys.new_note then
    match s.mode with
    | .editingNote | .editingExistingNote => s.finalize_note
    | .editingSection | .editingExistingSection => s.finalize_section
    | .saving =>
      let path := s.input
      let s1 := { s with input := [] }
      let s2 := if path ≠ [] then (let _ := s1.save_to_file env; s1) else s1
      { s2 with cursor := 0, mode := .normal }
    | .timeHack => s.finalize_time_hack env
    | _ => s
  else if c = s.keys.cancel then s.cancel_entry
  else if c = .char 'r' ∧ s.mode = .timeHack then
    { s with time_hack := none, input := [], cursor := 0, mode := .normal }
  else
    match c with
    | .char ch =>
      if key.modifiers = .none ∨ key.modifiers = .shift then
        let input' :=
          if s.cursor ≥ byteLen s.input then s.input ++ [ch]
          else insertAtByte s.input s.cursor ch
        { s with input := input', cursor := s.cursor + 1 }
      else s
    | .backspace =>
      if 0 < s.cursor ∧ s.cursor ≤ byteLen s.input then
        { s with cursor := s.cursor - 1, input := removeAtByte s.input (s.cursor - 1) }
      else s
    | .left => if 0 < s.cursor then { s with cursor := s.cursor - 1 } else s
    | .right => if s.cursor < byteLen s.input then { s with cursor := s.cursor + 1 } else s
    | _ => s

/-- Translation of `App::handle_loading_key`.  A failed read or parse of the
selected file is discarded by `.ok()`, leaving the state as it was; the mode
returns to `Normal` either way. -/
def App.handle_loading_key (env : Env) (s : App) (key : KeyEvent) : App :=
  let c := key.code
  if c = s.keys.up then
    if 0 < s.load_selected then { s with load_selected := s.load_selected - 1 } else s
  else if c = s.keys.down then
    if s.load_selected + 1 < s.load_files.length then
      { s with load_selected := s.load_selected + 1 }
    else s
  else if c = s.keys.new_note then
    let s1 :=
      match s.load_files[s.load_selected]? with
      | some fid =>
        match env.readFile fid with
        | some rows =>
          match load_from_file env rows with
          | .ok a => a
          | .error _ => s
        | none => s
      | none => s
    { s1 with mode := .normal }
  else if c = s.keys.cancel then { s with mode := .normal }
  else s

/-- Translation of `App::handle_keybindings_key`. -/
def App.handle_keybindings_key (s : App) (key : KeyEvent) : App :=
  let c := key.code
  if c = s.keys.up then
    if 0 < s.keybind_selected then { s with keybind_selected := s.keybind_selected - 1 } else s
  else if c = s.keys.down then
    if s.keybind_selected + 1 < Action.ALL.length then
      { s with keybind_selected := s.keybind_selected + 1 }
    else s
  else if c = .enter then s.start_capture_binding
  else if c = s.keys.cancel then { s with mode := .normal }
  else s

/-- Translation of `App::handle_capture_key`: cancel aborts, the bindings key
warns (unless rebinding the bindings action itself), a conflicting key stashes
the pending rebind, and otherwise the binding is applied and persisted. -/
def App.handle_capture_key (s : App) (key : KeyEvent) : App :=
  match s.capture_action with
  | none => s
  | some action =>
    let code := key.code
    if code = s.keys.cancel then
      { s with capture_action := none, mode := .keyBindings }
    else if code = s.keys.bindings ∧ action ≠ .bindings then
      { s with mode := .bindWarning }
    else
      match s.keys.action_for_key code with
      | some conflict =>
        if conflict ≠ action then
          { s with capture_action := none, pending_key := some code,
                   pending_action := some action, pending_conflict := some conflict,
                   mode := .confirmReplace }
        else
          { s with capture_action := none, keys := s.keys.set action code,
                   saved_keys := some (s.keys.set action code), mode := .keyBindings }
      | none =>
        { s with capture_action := none, keys := s.keys.set action code,
                 saved_keys := some (s.keys.set action code), mode := .keyBindings }

/-- Translation of `App::handle_bind_warning_key`. -/
def App.handle_bind_warning_key (s : App) (key : KeyEvent) : App :=
  if key.code = s.keys.cancel then { s with capture_action := none, mode := .keyBindings }
  else { s with mode := .keyCapture }

/-- Translation of `App::handle_confirm_key`: Enter takes all three pending
fields and, when all are present, unbinds the conflicting action, applies the
new binding and persists; the cancel key clears the pending fields.  Both
return to `KeyBindings`. -/
def App.handle_confirm_key (s : App) (key : KeyEvent) : App :=
  if key.code = .enter then
    match s.pending_key, s.pending_action, s.pending_conflict with
    | some new_key, some new_action, some conflict =>
      let keys1 := (s.keys.set conflict .null).set new_action new_key
      { s with pending_key := none, pending_action := none, pending_conflict := none,
               keys := keys1, saved_keys := some keys1, mode := .keyBindings }
    | _, _, _ =>
      { s with pending_key := none, pending_action := none, pending_conflict := none,
               mode := .keyBindings }
  else if key.code = s.keys.cancel then
    { s with pending_key := none, pending_action := none, pending_conflict := none,
             mode := .keyBindings }
  else s

/-- Translation of `App::handle_theme_key`. -/
def App.handle_theme_key (s : App) (key : KeyEvent) : App :=
  let c := key.code
  if c = s.keys.up then
    if 0 < s.theme_selected then { s with theme_selected := s.theme_selected - 1 } else s
  else if c = s.keys.down then
    if s.theme_selected + 1 < themeCount then { s with theme_selected := s.theme_selected + 1 }
    else s
  else if c = .enter then
    if s.theme_selected < themeCount then { s with theme := s.theme_selected, mode := .normal }
    else { s with mode := .normal }
  else if c = s.keys.cancel then { s with mode := .normal }
  else s

/-- Errors the application can return (`enum AppError`). -/
inductive AppError where
  | io
deriving DecidableEq

/-- Translation of `App::handle_event`: non-press key events are ignored,
key presses are dispatched on the current mode, and every path returns
`Ok(())`. -/
def App.handle_event (env : Env) (s : App) (event : Event) : App × Except AppError Unit :=
  match event with
  | .key key =>
    if key.kind ≠ .press then (s, .ok ())
    else
      match s.mode with
      | .normal => (s.handle_normal_key env key, .ok ())
      | .loading => (s.handle_loading_key env key, .ok ())
      | .keyBindings => (s.handle_keybindings_key key, .ok ())
      | .keyCapture => (s.handle_capture_key key, .ok ())
      | .confirmReplace => (s.handle_confirm_key key, .ok ())
      | .bindWarning => (s.handle_bind_warning_key key, .ok ())
      | .themeSelect => (s.handle_theme_key key, .ok ())
      | .editingNote | .editingSection | .editingExistingNote
      | .editingExistingSection | .saving | .timeHack =>
        (s.handle_editing_key env key, .ok ())
  | .nonKey => (s, .ok ())

/-! ## Derived notions and concrete scenario states -/

/-- Selection operations, for quantifying over call sequences. -/
inductive SelOp where
  | prev
  | next
deriving DecidableEq

/-- One selection call. -/
def applySelOp (s : App) (op : SelOp) : App :=
  match op with
  | .prev => s.select_previous
  | .next => s.select_next

/-- A sequence of `select_previous` / `select_next` calls. -/
def applySelOps (s : App) (ops : List SelOp) : App := ops.foldl applySelOp s

/-- Audit note appended by a successful time-hack finalization under
environment `env` for parsed time of day `tod`: real timestamp, text showing
the system time and the resulting hacked time. -/
def auditNote (env : Env) (tod : Nat) : Note where
  timestamp := env.sysNow
  text := "Time Hack: ".data ++ fmtHMS env.sysNow ++ " -> ".data ++
    fmtHMS (dateOf env.sysNow + (tod : Int))

/-- A concrete environment for witnesses and scenarios. -/
def env0 : Env where
  sysNow := 1234
  inst := 77
  cfgKeys := defaultKeys
  cfgTheme := 0
  savePath := "notes.csv".data
  saveOk := true
  dirFiles := []
  readFile := fun _ => none

/-- Feeding a string through `handle_event` one character key press at a
time. -/
def afterTyping (env : Env) (str : Str) (s : App) : App :=
  (str.map (fun c => Event.key (keyPress (.char c)))).foldl
    (fun a ev => (a.handle_event env ev).1) s

/-- End-to-end scenario: fresh app, `start_note`, typing `hello`,
`finalize_note`. -/
def noteScenario (env : Env) : App :=
  (afterTyping env "hello".data ((freshApp defaultKeys 0).start_note env)).finalize_note

/-- Cancel scenario: fresh app, `start_note`, typing `discard`,
`cancel_entry`. -/
def cancelScenario (env : Env) : App :=
  (afterTyping env "discard".data ((freshApp defaultKeys 0).start_note env)).cancel_entry

/-- Fresh app on default bindings with capture initiated for action `Load`
(entry 6 of `Action::ALL`). -/
def captureLoadApp : App :=
  App.start_capture_binding
    { (freshApp defaultKeys 0).start_keybindings with keybind_selected := 6 }

/-- State after pressing `w` (the Save key) during that capture. -/
def rebindAfterW : App := captureLoadApp.handle_capture_key (keyPress (.char 'w'))

/-- State after confirming the replacement with Enter. -/
def rebindConfirmed : App := rebindAfterW.handle_confirm_key (keyPress .enter)

/-- State after cancelling the replacement with Esc. -/
def rebindCancelled : App := rebindAfterW.handle_confirm_key (keyPress .esc)

/-- A fresh app whose input buffer holds a single blank, about to finalize a
new section. -/
def whitespaceSectionApp : App :=
  { freshApp defaultKeys 0 with input := [' '], mode := .editingSection }

/-- A one-entry app with nothing selected (the state `load_from_file`
produces). -/
def unselectedApp : App :=
  { freshApp defaultKeys 0 with entries := [.sec { title := ['x'] }] }

/-- An app mid-way through entering a brand-new note. -/
def appendWitnessApp : App :=
  { freshApp defaultKeys 0 with
    note_time := some 42, input := "hi".data, mode := .editingNote }

/-- An app mid-way through editing the text of its only note. -/
def editWitnessApp : App :=
  { freshApp defaultKeys 0 with
    entries := [.note { timestamp := 5, text := "old".data }],
    notes := [{ timestamp := 5, text := "old".data }],
    input := "new".data, edit_index := some 0, mode := .editingExistingNote }

/-- Entry list exercising the persistence round trip: a negative timestamp,
an empty section title, and an empty note text. -/
def demoEntries : List Entry :=
  [.note { timestamp := -5, text := "ab".data }, .sec { title := [] },
   .sec { title := "Topic".data }, .note { timestamp := 1700000000000000000, text := [] }]

/-- App holding `demoEntries` with `notes` in sync. -/
def demoApp : App :=
  { freshApp defaultKeys 0 with entries := demoEntries, notes := notesOf demoEntries }

/-- Fresh app with the TimeHack input holding `01:02:03`. -/
def timeHackApp : App :=
  { freshApp defaultKeys 0 with input := "01:02:03".data, mode := .timeHack }

/-- Fresh app prompting for a save path. -/
def savingApp : App :=
  { freshApp defaultKeys 0 with input := "p".data, mode := .saving }

/-- Fresh app in the load overlay with one file listed. -/
def loadingApp : App :=
  { freshApp defaultKeys 0 with load_files := [0], mode := .loading }

/-- Environment whose file system fails every save and read. -/
def envFail : Env := { env0 with saveOk := false, readFile := fun _ => none }

/-- Fresh app after pressing Enter (start a note) and then typing the
two-byte character `é`. -/
def multiByteApp (env : Env) : App :=
  (((freshApp defaultKeys 0).handle_event env
      (.key (keyPress .enter))).1.handle_event env (.key (keyPress (.char 'é')))).1

/-! ## Lemmas for the decimal and timestamp codecs -/

theorem digitVal_digitChar {d : Nat} (h : d < 10) : digitVal (digitChar d) = some d := by
  interval_cases d <;> rfl

theorem parseNatAux_natDigitsAux (n : Nat) :
    ∀ acc a, parseNatAux (natDigitsAux n acc) a =
      parseNatAux acc (a * 10 ^ digitCount n + n) := by
  induction n using Nat.strong_induction_on with
  | _ n ih =>
    intro acc a
    by_cases h : n < 10
    · unfold natDigitsAux digitCount
      rw [dif_pos h, dif_pos h]
      simp only [parseNatAux, digitVal_digitChar h, pow_one]
    · have hd : n / 10 < n := Nat.div_lt_self (by omega) (by omega)
      unfold natDigitsAux digitCount
      rw [dif_neg h, dif_neg h, ih (n / 10) hd]
      simp only [parseNatAux, digitVal_digitChar (Nat.mod_lt n (by omega))]
      rw [pow_succ, ← mul_assoc]
      generalize a * 10 ^ digitCount (n / 10) = b
      congr 1
      omega

theorem natDigitsAux_ne_nil (n : Nat) : ∀ acc, natDigitsAux n acc ≠ [] := by
  induction n using Nat.strong_induction_on with
  | _ n ih =>
    intro acc
    unfold natDigitsAux
    split
    · simp
    · exact ih (n / 10) (Nat.div_lt_self (by omega) (by omega)) _

theorem parseNat_cons_eq (c : Char) (cs : List Char) :
    parseNat (c :: cs) = parseNatAux (c :: cs) 0 := by
  cases hd : digitVal c <;> simp [parseNat, parseNatAux, hd]

/-- Round trip of the decimal rendering of a natural number. -/
theorem parseNat_natDigits (n : Nat) : parseNat (natDigits n) = some n := by
  obtain ⟨c, cs, hc⟩ : ∃ c cs, natDigits n = c :: cs := by
    cases h : natDigits n with
    | nil => exact absurd h (natDigitsAux_ne_nil n [])
    | cons c cs => exact ⟨c, cs, rfl⟩
  rw [hc, parseNat_cons_eq, ← hc]
  unfold natDigits
  rw [parseNatAux_natDigitsAux]
  simp [parseNatAux]

/-- Round trip of the timestamp codec: parsing a rendered timestamp yields
the same instant. -/
theorem decTime_encTime (t : Int) : decTime (encTime t) = some t := by
  unfold encTime
  by_cases h : t < 0
  · rw [if_pos h]
    simp only [decTime, if_pos rfl, parseNat_natDigits, Option.map_some']
    simp only [reduceIte, parseNat_natDigits, Option.map_some', Option.some.injEq]
    omega
  · rw [if_neg h]
    obtain ⟨c, cs, hc⟩ : ∃ c cs, natDigits t.toNat = c :: cs := by
      cases hx : natDigits t.toNat with
      | nil => exact absurd hx (natDigitsAux_ne_nil t.toNat [])
      | cons c cs => exact ⟨c, cs, rfl⟩
    have hp : parseNat (c :: cs) = some t.toNat := by
      rw [← hc, parseNat_natDigits]
    have hcne : c ≠ '-' := by
      intro hceq
      rw [hceq] at hp
      simp [parseNat, digitVal] at hp
    rw [hc]
    simp only [decTime, if_neg hcne, hp, Option.map_some', Option.some.injEq]
    omega

/-! ## Claim C6: the key codec round trip -/

/-- C6, counterexample: the round trip fails on the printable character `é`,
whose UTF-8 encoding is two bytes — `key_to_string` renders it, but
`string_to_key` requires byte length 1 and returns `none`. -/
theorem C6_counterexample :
    string_to_key (key_to_string (KeyCode.char 'é')) = none ∧
    string_to_key (key_to_string (KeyCode.char 'é')) ≠ some (KeyCode.char 'é') := by
  decide

/-- C6, amended: `string_to_key (key_to_string k) = some k` holds for every
symbolic key (Enter, Esc, Up, Down, Left, Right, Null) and for every
character key whose UTF-8 encoding is a single byte; multi-byte characters
decode to `none`. -/
theorem C6_key_codec_round_trip :
    (∀ k : KeyCode,
      (k = .enter ∨ k = .esc ∨ k = .up ∨ k = .down ∨ k = .left ∨ k = .right ∨ k = .null) →
      string_to_key (key_to_string k) = some k) ∧
    (∀ c : Char, utf8Len c = 1 → string_to_key (key_to_string (.char c)) = some (.char c)) := by
  constructor
  · intro k hk
    rcases hk with h | h | h | h | h | h | h <;> subst h <;> decide
  · intro c h
    simp [key_to_string, string_to_key, byteLen, h]

/-- C6, witness: the amended round trip applied to the one-byte character
`x`. -/
theorem C6_witness : string_to_key (key_to_string (.char 'x')) = some (.char 'x') :=
  C6_key_codec_round_trip.2 'x' (by decide)

/-! ## Claim C9: cancel_entry is a pure discard -/

/-- C9: `cancel_entry` clears the input buffer, the pending timestamp and
the edit index, resets the caret, returns to `Normal`, and touches nothing
else — in particular `entries` and `notes` are left unmutated; the concrete
cancel scenario (fresh app, `start_note`, typing `discard`, `cancel_entry`)
ends with no notes, an empty buffer and `Normal` mode. -/
theorem C9_cancel_entry :
    (∀ s : App, s.cancel_entry =
      { s with input := [], note_time := none, edit_index := none, cursor := 0,
               mode := .normal }) ∧
    (∀ env : Env, (cancelScenario env).notes = [] ∧ (cancelScenario env).input = [] ∧
      (cancelScenario env).mode = .normal) := by
  constructor
  · intro s
    rfl
  · intro env
    exact ⟨rfl, rfl, rfl⟩

/-! ## Claim C5: finalize_section on an empty buffer -/

/-- C5, counterexample: the source does not trim the title — finalizing a
new section whose buffer is the single blank `' '` (which trims to empty)
appends a section titled with that blank, so `entries` does not stay
unchanged. -/
theorem C5_counterexample :
    whitespaceSectionApp.edit_index = none ∧
    whitespaceSectionApp.input = [' '] ∧
    whitespaceSectionApp.finalize_section.entries ≠ whitespaceSectionApp.entries ∧
    whitespaceSectionApp.finalize_section.entries = [.sec { title := [' '] }] := by
  decide

/-- C5, amended: with no edit index set, `finalize_section` leaves `entries`
unchanged exactly when the buffer is empty (no trimming happens); a
non-empty buffer — whitespace included — appends a section carrying the
buffer as title.  The mode returns to `Normal` either way. -/
theorem C5_finalize_section_empty :
    ∀ s : App, s.edit_index = none →
      (s.input = [] →
        s.finalize_section.entries = s.entries ∧ s.finalize_section.mode = .normal) ∧
      (s.input ≠ [] →
        s.finalize_section.entries = s.entries ++ [.sec { title := s.input }] ∧
        s.finalize_section.mode = .normal) := by
  intro s h
  constructor
  · intro hi
    simp [App.finalize_section, h, hi]
  · intro hi
    simp [App.finalize_section, h, hi]

/-- C5, witness: the amended statement applied to a fresh app in
section-editing mode with an empty buffer. -/
theorem C5_witness :
    (App.finalize_section
        { freshApp defaultKeys 0 with mode := .editingSection }).entries =
      ({ freshApp defaultKeys 0 with mode := .editingSection } : App).entries :=
  ((C5_finalize_section_empty { freshApp defaultKeys 0 with mode := .editingSection } rfl).1
    rfl).1

/-! ## Claim C3: the rebind-conflict scenario -/

/-- C3: from default bindings (Save on `w`, Load on `l`), capturing a key
for Load and pressing `w` moves to `ConfirmReplace` with pending action
Load, pending conflict Save and pending key `w`; Enter then binds Load to
`w`, sets Save to the `Null` sentinel, persists the bindings and returns to
`KeyBindings`; Esc instead discards the stashed rebind and returns to
`KeyBindings` with every binding unchanged. -/
theorem C3_rebind_conflict :
    (defaultKeys.save = .char 'w' ∧ defaultKeys.load = .char 'l') ∧
    (rebindAfterW.mode = .confirmReplace ∧ rebindAfterW.pending_action = some .load ∧
     rebindAfterW.pending_conflict = some .save ∧ rebindAfterW.pending_key = some (.char 'w')) ∧
    (rebindConfirmed.keys.get .load = .char 'w' ∧ rebindConfirmed.keys.get .save = .null ∧
     rebindConfirmed.saved_keys = some rebindConfirmed.keys ∧
     rebindConfirmed.mode = .keyBindings) ∧
    (rebindCancelled.keys = defaultKeys ∧ rebindCancelled.mode = .keyBindings ∧
     rebindCancelled.pending_key = none ∧ rebindCancelled.pending_action = none ∧
     rebindCancelled.pending_conflict = none) := by
  decide

/-! ## Claim C10: caret soundness of the editing handler -/

/-- C10: the caret-soundness invariant fails on the code.  After pressing
Enter (start a note) and typing the two-byte character `é` through
`handle_event`, the caret sits at byte offset 1, strictly inside the
character's encoding: not a character boundary.  The next insertion or
backspace would call `String::insert` / `String::remove` off a boundary and
panic in Rust. -/
theorem C10_caret_boundary_violation :
    ∀ env : Env,
      (multiByteApp env).input = ['é'] ∧
      (multiByteApp env).cursor = 1 ∧
      byteLen (multiByteApp env).input = 2 ∧
      isCharBoundary (multiByteApp env).input (multiByteApp env).cursor = false := by
  intro env
  exact ⟨rfl, rfl, rfl, rfl⟩

/-! ## Claim C4: the selection invariant -/

theorem select_previous_entries (s : App) : s.select_previous.entries = s.entries := by
  unfold App.select_previous
  split <;> rfl

theorem select_next_entries (s : App) : s.select_next.entries = s.entries := by
  unfold App.select_next
  split <;> split <;> rfl

theorem applySelOp_entries (s : App) (op : SelOp) : (applySelOp s op).entries = s.entries := by
  cases op
  · exact select_previous_entries s
  · exact select_next_entries s

theorem applySelOp_inv (s : App) (op : SelOp)
    (h : ∀ i, s.selected = some i → i < s.entries.length) (i : Nat)
    (hi : (applySelOp s op).selected = some i) : i < s.entries.length := by
  cases op with
  | prev =>
    rcases hs : s.selected with _ | (_ | j)
    · simp [applySelOp, App.select_previous, hs] at hi
    · simp [applySelOp, App.select_previous, hs] at hi
      exact hi ▸ h 0 hs
    · simp [applySelOp, App.select_previous, hs] at hi
      have := h (j + 1) hs
      omega
  | next =>
    rcases hs : s.selected with _ | j
    · by_cases he : s.entries.isEmpty
      · simp [applySelOp, App.select_next, hs, he] at hi
      · simp [applySelOp, App.select_next, hs, he] at hi
        have hne : s.entries ≠ [] := by simpa using he
        have := List.length_pos.mpr hne
        omega
    · by_cases hlt : j + 1 < s.entries.length
      · simp [applySelOp, App.select_next, hs, hlt] at hi
        omega
      · simp [applySelOp, App.select_next, hs, hlt] at hi
        have := h j hs
        omega

/-- C4, counterexample: a one-entry app with nothing selected (exactly what
`load_from_file` returns) keeps a `None` selection across `select_previous`,
so "selection is `None` iff `entries` is empty" fails. -/
theorem C4_counterexample :
    ¬(((applySelOps unselectedApp [.prev]).selected = none) ↔
      ((applySelOps unselectedApp [.prev]).entries = [])) := by
  decide

/-- C4, amended: after any sequence of `select_next` / `select_previous`
calls from a state whose selection is `None` or in bounds, `entries` is
unchanged and the selection is still `None` or a valid index in
`[0, entries.len())`; the calls never force a selection to appear, so a
`None` selection can persist on a non-empty list. -/
theorem C4_selection_in_bounds :
    ∀ (s : App) (ops : List SelOp),
      (∀ i, s.selected = some i → i < s.entries.length) →
      (applySelOps s ops).entries = s.entries ∧
      (∀ i, (applySelOps s ops).selected = some i → i < s.entries.length) := by
  intro s ops
  induction ops generalizing s with
  | nil => intro h; exact ⟨rfl, h⟩
  | cons op rest ih =>
    intro h
    have hstep : ∀ i, (applySelOp s op).selected = some i →
        i < (applySelOp s op).entries.length := by
      intro i hi
      rw [applySelOp_entries]
      exact applySelOp_inv s op h i hi
    have hrec := ih (applySelOp s op) hstep
    have hrw : applySelOps s (op :: rest) = applySelOps (applySelOp s op) rest := rfl
    constructor
    · rw [hrw, hrec.1, applySelOp_entries]
    · intro i hi
      rw [hrw] at hi
      have := hrec.2 i hi
      rwa [applySelOp_entries] at this

/-- C4, witness: the amended invariant applied to the one-entry app and a
concrete three-call sequence. -/
theorem C4_witness :
    (applySelOps unselectedApp [SelOp.next, SelOp.prev, SelOp.prev]).entries =
      unselectedApp.entries :=
  (C4_selection_in_bounds unselectedApp [SelOp.next, SelOp.prev, SelOp.prev]
    (fun i hi => by simp [unselectedApp, freshApp] at hi)).1

/-! ## Claim C1: finalize_note -/

theorem updateFirstNote_eq_set :
    ∀ (notes : List Note) (j : Nat) (m : Note) (ts : Int) (txt : Str),
      notes[j]? = some m → m.timestamp = ts →
      (∀ k m2, k < j → notes[k]? = some m2 → m2.timestamp ≠ ts) →
      updateFirstNote notes ts txt = notes.set j { timestamp := ts, text := txt } := by
  intro notes
  induction notes with
  | nil =>
    intro j m ts txt hj
    simp at hj
  | cons m0 rest ih =>
    intro j m ts txt hj hts hfirst
    cases j with
    | zero =>
      simp at hj
      subst hj
      simp [updateFirstNote, hts]
    | succ j =>
      have h0 : m0.timestamp ≠ ts := hfirst 0 m0 (Nat.succ_pos j) (by simp)
      simp only [updateFirstNote, if_neg h0, List.set_cons_succ, List.cons.injEq, true_and]
      exact ih j m ts txt (by simpa using hj) hts
        (fun k m2 hk hsome => hfirst (k + 1) m2 (by omega) (by simpa using hsome))

/-- C1: `finalize_note` (a) with an edit index set on a note entry
overwrites that entry's text in place with the input buffer, copies the same
text to the first element of `notes` carrying that entry's timestamp
(position `j` below, the matching element when timestamps are unique),
leaves the entry count unchanged (a `set`), clears the transient state and
returns to `Normal`; (b) with no edit index but a pending timestamp set it
appends a new note carrying that timestamp and the input-buffer text to both
`entries` and `notes`, selects the new entry and clears the transient state,
returning to `Normal` — so the end-to-end scenario fresh app, `start_note`,
typing `hello`, `finalize_note` ends with one note of text `hello`, mode
`Normal` and selection `Some 0`; (c) with neither an edit index nor a
pending timestamp it is silently a no-op. -/
theorem C1_finalize_note :
    (∀ (s : App) (idx j : Nat) (n m : Note),
      s.edit_index = some idx →
      s.entries[idx]? = some (.note n) →
      s.notes[j]? = some m → m.timestamp = n.timestamp →
      (∀ k m2, k < j → s.notes[k]? = some m2 → m2.timestamp ≠ n.timestamp) →
      s.finalize_note =
        { s with
          entries := s.entries.set idx (.note { timestamp := n.timestamp, text := s.input }),
          notes := s.notes.set j { timestamp := n.timestamp, text := s.input },
          input := [], edit_index := none, mode := .normal, note_time := none,
          cursor := 0 }) ∧
    (∀ (s : App) (time : Int), s.edit_index = none → s.note_time = some time →
      s.finalize_note =
        { s with
          notes := s.notes ++ [{ timestamp := time, text := s.input }],
          entries := s.entries ++ [.note { timestamp := time, text := s.input }],
          selected := some s.entries.length,
          input := [], note_time := none, mode := .normal, cursor := 0 }) ∧
    (∀ env : Env,
      (noteScenario env).notes.map Note.text = ["hello".data] ∧
      (noteScenario env).mode = .normal ∧
      (noteScenario env).selected = some 0) ∧
    (∀ s : App, s.edit_index = none → s.note_time = none → s.finalize_note = s) := by
  refine ⟨?_, ?_, ?_, ?_⟩
  · intro s idx j n m hidx hentry hj hts hfirst
    simp only [App.finalize_note, hidx, hentry]
    rw [updateFirstNote_eq_set s.notes j m n.timestamp s.input hj hts hfirst]
  · intro s time h1 h2
    simp only [App.finalize_note, h1, h2]
  · intro env
    exact ⟨rfl, rfl, rfl⟩
  · intro s h1 h2
    simp [App.finalize_note, h1, h2]

/-- C1, witness: the edit path applied to an app editing its only note, the
append path applied to an app entering a new note, and the no-op path
applied to a fresh app. -/
theorem C1_witness :
    App.finalize_note editWitnessApp =
      { editWitnessApp with
        entries := [.note { timestamp := 5, text := "new".data }],
        notes := [{ timestamp := 5, text := "new".data }],
        input := [], edit_index := none, mode := .normal, note_time := none,
        cursor := 0 } ∧
    App.finalize_note appendWitnessApp =
      { appendWitnessApp with
        notes := [{ timestamp := 42, text := "hi".data }],
        entries := [.note { timestamp := 42, text := "hi".data }],
        selected := some 0,
        input := [], note_time := none, mode := .normal, cursor := 0 } ∧
    App.finalize_note (freshApp defaultKeys 0) = freshApp defaultKeys 0 := by
  refine ⟨?_, ?_, ?_⟩
  · have h := C1_finalize_note.1 editWitnessApp 0 0
      { timestamp := 5, text := "old".data } { timestamp := 5, text := "old".data }
      rfl rfl rfl rfl (fun k m2 hk _ => absurd hk (Nat.not_lt_zero k))
    rw [h]
    rfl
  · have h := C1_finalize_note.2.1 appendWitnessApp 42 rfl rfl
    rw [h]
    rfl
  · exact C1_finalize_note.2.2.2 (freshApp defaultKeys 0) rfl rfl

/-! ## Claim C7: finalize_time_hack -/

/-- C7: finalizing the TimeHack input has exactly three cases.  Empty input
clears any active hack; input parsing as a time of day installs the hack
with the parsed base and the captured instant and appends the audit note —
timestamped with the real system time, text showing the system and hacked
times — to both `entries` and `notes`, selecting it; non-empty unparseable
input leaves the hack unchanged with nothing surfaced.  In every case the
buffer ends empty, the caret resets and the mode returns to `Normal`. -/
theorem C7_finalize_time_hack :
    ∀ (env : Env) (s : App),
      (s.input = [] →
        s.finalize_time_hack env =
          { s with time_hack := none, input := [], cursor := 0, mode := .normal }) ∧
      (∀ tod : Nat, parseTimeOfDay s.input = some tod →
        s.finalize_time_hack env =
          { s with time_hack := some (tod, env.inst),
                   notes := s.notes ++ [auditNote env tod],
                   entries := s.entries ++ [.note (auditNote env tod)],
                   selected := some s.entries.length,
                   input := [], cursor := 0, mode := .normal }) ∧
      (s.input ≠ [] → parseTimeOfDay s.input = none →
        s.finalize_time_hack env = { s with input := [], cursor := 0, mode := .normal }) := by
  intro env s
  refine ⟨?_, ?_, ?_⟩
  · intro hi
    unfold App.finalize_time_hack
    rw [if_pos hi]
  · intro tod hp
    have hne : s.input ≠ [] := by
      intro he
      rw [he] at hp
      simp [parseTimeOfDay, takeNumericField, takeUpTo2Digits] at hp
    unfold App.finalize_time_hack
    rw [if_neg hne, hp]
    simp [App.current_time, auditNote, Nat.sub_self]
  · intro hne hp
    unfold App.finalize_time_hack
    rw [if_neg hne, hp]

/-- C7, witness: the install case applied to the input `01:02:03` under the
concrete environment, and the clear case applied to an app with an active
hack and empty input. -/
theorem C7_witness :
    App.finalize_time_hack env0 timeHackApp =
      { timeHackApp with
        time_hack := some (3723000000000, 77),
        notes := [auditNote env0 3723000000000],
        entries := [.note (auditNote env0 3723000000000)],
        selected := some 0, input := [], cursor := 0, mode := .normal } ∧
    App.finalize_time_hack env0 { freshApp defaultKeys 0 with time_hack := some (1, 2) } =
      { freshApp defaultKeys 0 with time_hack := none } := by
  constructor
  · have h := ((C7_finalize_time_hack env0 timeHackApp).2.1) 3723000000000 (by decide)
    rw [h]
    rfl
  · have h := ((C7_finalize_time_hack env0
      { freshApp defaultKeys 0 with time_hack := some (1, 2) }).1) rfl
    rw [h]
    rfl

/-! ## Claim C8: handle_event never errors -/

/-- C8: `handle_event` returns `Ok` for every state and event; confirming in
`Saving` mode returns the mode to `Normal` whatever the save's file I/O
does, and confirming in `Loading` mode (with the confirm key not shadowed by
the up/down bindings, which are matched first) returns the mode to `Normal`
whatever the read or parse of the selected file does — failures are
swallowed, not surfaced or retried. -/
theorem C8_handle_event_total :
    (∀ (env : Env) (s : App) (ev : Event), (s.handle_event env ev).2 = .ok ()) ∧
    (∀ (env : Env) (s : App) (k : KeyEvent),
      s.mode = .saving → k.kind = .press → k.code = s.keys.new_note →
      ((s.handle_event env (.key k)).1).mode = .normal) ∧
    (∀ (env : Env) (s : App) (k : KeyEvent),
      s.mode = .loading → k.kind = .press → k.code = s.keys.new_note →
      k.code ≠ s.keys.up → k.code ≠ s.keys.down →
      ((s.handle_event env (.key k)).1).mode = .normal) := by
  refine ⟨?_, ?_, ?_⟩
  · intro env s ev
    cases ev with
    | nonKey => rfl
    | key k =>
      simp only [App.handle_event]
      split
      · rfl
      · split <;> rfl
  · intro env s k hm hkind hcode
    simp [App.handle_event, App.handle_editing_key, hm, hkind, hcode]
  · intro env s k hm hkind hcode hup hdown
    rw [hcode] at hup hdown
    simp [App.handle_event, App.handle_loading_key, hm, hkind, hcode, hup, hdown]

/-- C8, witness: both confirm paths under an environment whose file system
fails every operation still return `Ok` with mode `Normal`. -/
theorem C8_witness :
    ((savingApp.handle_event envFail (.key (keyPress .enter))).1).mode = .normal ∧
    ((loadingApp.handle_event envFail (.key (keyPress .enter))).1).mode = .normal ∧
    ((savingApp.handle_event envFail (.key (keyPress .enter))).2) = .ok () :=
  ⟨C8_handle_event_total.2.1 envFail savingApp (keyPress .enter) rfl rfl rfl,
   C8_handle_event_total.2.2 envFail loadingApp (keyPress .enter) rfl rfl rfl
     (by decide) (by decide),
   C8_handle_event_total.1 envFail savingApp (.key (keyPress .enter))⟩

/-! ## Claim C2: the persistence round trip -/

theorem loadStep_rowOfEntry (a : App) (e : Entry) :
    loadStep a (rowOfEntry e) =
      .ok { a with entries := a.entries ++ [e], notes := a.notes ++ notesOf [e] } := by
  cases e with
  | note n =>
    simp [loadStep, rowOfEntry, decTime_encTime, notesOf]
  | sec c =>
    have hne : ¬("section".data = "note".data) := by decide
    simp [loadStep, rowOfEntry, hne, notesOf]

theorem loadRecords_saveRows :
    ∀ (entries : List Entry) (a : App),
      loadRecords a (saveRows entries) =
        .ok { a with entries := a.entries ++ entries, notes := a.notes ++ notesOf entries } := by
  intro entries
  induction entries with
  | nil =>
    intro a
    simp [saveRows, loadRecords, notesOf]
  | cons e rest ih =>
    intro a
    have h1 : saveRows (e :: rest) = rowOfEntry e :: saveRows rest := rfl
    rw [h1]
    show (match loadStep a (rowOfEntry e) with
      | .ok a1 => loadRecords a1 (saveRows rest)
      | .error er => .error er) = _
    rw [loadStep_rowOfEntry]
    show loadRecords
      { a with entries := a.entries ++ [e], notes := a.notes ++ notesOf [e] }
      (saveRows rest) = _
    rw [ih]
    cases e <;> simp [notesOf]

/-- C2: for every entry list, `save_to_file` writes one record per entry in
`entries` order — `("note", timestamp, text)` for notes, `("section", "",
title)` for sections, as `saveRows` states — and `load_from_file` on that
output succeeds and yields an app whose `entries` equal the original list
(timestamps denoting the same instant) and whose `notes` equal the original
`notes` list, the note projection of `entries`. -/
theorem C2_save_load_round_trip :
    ∀ (env : Env) (s : App),
      s.notes = notesOf s.entries →
      (saveRows s.entries).length = s.entries.length ∧
      load_from_file env (saveRows s.entries) =
        .ok { freshApp env.cfgKeys env.cfgTheme with entries := s.entries, notes := s.notes } := by
  intro env s h
  constructor
  · simp [saveRows]
  · rw [load_from_file, loadRecords_saveRows, h]
    rfl

/-- C2, witness: the round trip applied to a four-entry list holding a
negative timestamp, an empty section title and an empty note text. -/
theorem C2_witness :
    load_from_file env0 (saveRows demoApp.entries) =
      .ok { freshApp env0.cfgKeys env0.cfgTheme with
            entries := demoApp.entries, notes := demoApp.notes } :=
  (C2_save_load_round_trip env0 demoApp rfl).2

end RTNT
